import Mathlib

/-!
Verification development for the well-log utilities in `bwli/utils.py`:
a multi-track depth-plot renderer (`combo_plot`) and a productive-zone
labeler (`add_productive_zones`).  The pandas DataFrame is modelled as an
ordered list of named columns whose cells are either missing (NaN) or an
exact rational value; matplotlib objects are modelled by records that keep
the configuration the code installs on them.
-/

namespace BWLI

/-- A cell of the table: `none` models a missing value (NaN in pandas).
Numeric values are modelled by exact rationals. -/
abbrev Cell := Option ℚ

/-- A column is the ordered list of its cells. -/
abbrev Col := List Cell

/-- A DataFrame: ordered, named columns with a shared row index. -/
structure DataFrame where
  cols : List (String × Col)
deriving DecidableEq

/-- The ordered list of column names. -/
def DataFrame.names (df : DataFrame) : List String :=
  df.cols.map Prod.fst

/-- First-match lookup in a named-column list. -/
def lookupCol : List (String × Col) → String → Option Col
  | [], _ => none
  | p :: rest, n => if p.1 = n then some p.2 else lookupCol rest n

/-- Column lookup by name (first match), i.e. `df[name]`. -/
def DataFrame.get? (df : DataFrame) (n : String) : Option Col :=
  lookupCol df.cols n

/-- Membership test `name in df.columns`. -/
def DataFrame.hasCol (df : DataFrame) (n : String) : Bool :=
  df.cols.any (fun p => decide (p.1 = n))

/-- Rewrite every column named `n` through `F`, leaving other columns and
all names untouched. -/
def mapCol (l : List (String × Col)) (n : String) (F : Col → Col) :
    List (String × Col) :=
  l.map (fun p => if p.1 = n then (p.1, F p.2) else p)

/-- Column assignment `df[name] = c`: overwrite the column when the name is
present, append a new column otherwise (pandas semantics). -/
def DataFrame.setCol (df : DataFrame) (n : String) (c : Col) : DataFrame :=
  if df.hasCol n then ⟨mapCol df.cols n (fun _ => c)⟩
  else ⟨df.cols ++ [(n, c)]⟩

/-- Number of rows of the frame (length of the shared index; the length of
the first column for a well-formed frame). -/
def DataFrame.nrows (df : DataFrame) : ℕ :=
  match df.cols with
  | [] => 0
  | c :: _ => c.2.length

/-- `df.copy()`.  In the pure model a copy is the same value; object
identity is treated separately by the heap model below. -/
def DataFrame.copy (df : DataFrame) : DataFrame := df

/-- `d >= x` on a cell: comparisons against NaN are false. -/
def cellGe (c : Cell) (x : ℚ) : Bool :=
  match c with
  | none => false
  | some v => decide (x ≤ v)

/-- `d <= x` on a cell: comparisons against NaN are false. -/
def cellLe (c : Cell) (x : ℚ) : Bool :=
  match c with
  | none => false
  | some v => decide (v ≤ x)

/-- The boolean mask `(dept >= top) & (dept <= base)`. -/
def zoneMask (dept : Col) (top base : ℚ) : List Bool :=
  dept.map (fun c => cellGe c top && cellLe c base)

/-- Masked scalar assignment on one column: rows where the mask is true are
set to 1, others keep their value (`col.loc[mask] = 1`). -/
def maskedSet1 (c : Col) (mask : List Bool) : Col :=
  List.zipWith (fun x m => if m then some 1 else x) c mask

/-- `df.loc[mask, n] = 1`: every column named `n` gets the masked
assignment; other columns are untouched. -/
def DataFrame.locSet1 (df : DataFrame) (n : String) (mask : List Bool) : DataFrame :=
  ⟨mapCol df.cols n (fun c => maskedSet1 c mask)⟩

/-- Name of the classification column the labeler actually adds
(source line 205). -/
def hfc : String := "hydrocarbon_formation_class"

/-- One iteration of the labeler loop (source lines 211-213): read
`result.DEPT` (an AttributeError when the column is missing) and set the
masked rows of the classification column to 1. -/
def addZonesStep (r : DataFrame) (z : ℚ × ℚ) : Except String DataFrame :=
  match r.get? "DEPT" with
  | none => .error "AttributeError: no column DEPT"
  | some dept => .ok (r.locSet1 hfc (zoneMask dept z.1 z.2))

/-- `add_productive_zones(data, productive_zones)` (source lines 189-215):
copy the input, initialize the classification column to all zeros, then for
each (top, base) zone set rows with `top <= DEPT <= base` to 1. -/
def add_productive_zones (data : DataFrame) (productive_zones : List (ℚ × ℚ)) :
    Except String DataFrame :=
  let result := data.copy
  let result := result.setCol hfc (List.replicate result.nrows (some 0))
  productive_zones.foldlM addZonesStep result

/-- Whether a depth cell lies in at least one zone. -/
def inAnyZone (zones : List (ℚ × ℚ)) (c : Cell) : Bool :=
  zones.any (fun z => cellGe c z.1 && cellLe c z.2)

/-- The classification column the labeler produces for a depth column. -/
def labelCol (zones : List (ℚ × ℚ)) (dept : Col) : Col :=
  dept.map (fun c => some (if inAnyZone zones c then 1 else 0))

example :
    (add_productive_zones
        ⟨[("DEPT", [some 3690, some 3700, some 3750, some 3999, some 4010])]⟩
        [(3700, 4000)]).toOption.map (fun out => out.get? hfc)
      = some (some [some 0, some 1, some 1, some 1, some 0]) := by decide

/-! Lookup and update lemmas for the DataFrame model. -/

lemma lookupCol_mapCol_self (l : List (String × Col)) (n : String) (F : Col → Col) :
    lookupCol (mapCol l n F) n = (lookupCol l n).map F := by
  induction l with
  | nil => rfl
  | cons p rest ih =>
    by_cases hp : p.1 = n
    · simp [mapCol, lookupCol, hp]
    · simpa [mapCol, lookupCol, hp] using ih

lemma lookupCol_mapCol_ne (l : List (String × Col)) (n m : String) (F : Col → Col)
    (h : m ≠ n) :
    lookupCol (mapCol l n F) m = lookupCol l m := by
  have hnm : ¬ n = m := fun hh => h hh.symm
  induction l with
  | nil => rfl
  | cons p rest ih =>
    by_cases hp : p.1 = n
    · simpa [mapCol, lookupCol, hp, hnm] using ih
    · by_cases hpm : p.1 = m
      · have hmn : ¬ m = n := hpm ▸ hp
        simp [mapCol, lookupCol, hp, hpm, hmn]
      · simpa [mapCol, lookupCol, hp, hpm] using ih

lemma lookupCol_append_single_ne (l : List (String × Col)) (n m : String) (c : Col)
    (h : m ≠ n) :
    lookupCol (l ++ [(n, c)]) m = lookupCol l m := by
  induction l with
  | nil => simp [lookupCol, h.symm]
  | cons p rest ih =>
    by_cases hp : p.1 = m
    · simp [lookupCol, hp]
    · simpa [lookupCol, hp] using ih

lemma lookupCol_append_single_self (l : List (String × Col)) (n : String) (c : Col)
    (h : l.any (fun p => decide (p.1 = n)) = false) :
    lookupCol (l ++ [(n, c)]) n = some c := by
  induction l with
  | nil => simp [lookupCol]
  | cons p rest ih =>
    simp only [List.any_cons, Bool.or_eq_false_iff, decide_eq_false_iff_not] at h
    simpa [lookupCol, h.1] using ih h.2

lemma names_mapCol (l : List (String × Col)) (n : String) (F : Col → Col) :
    (mapCol l n F).map Prod.fst = l.map Prod.fst := by
  induction l with
  | nil => rfl
  | cons p rest ih =>
    by_cases hp : p.1 = n
    · simpa [mapCol, hp] using ih
    · simpa [mapCol, hp] using ih

lemma lookupCol_isSome_of_any (l : List (String × Col)) (n : String)
    (h : l.any (fun p => decide (p.1 = n)) = true) :
    ∃ c, lookupCol l n = some c := by
  induction l with
  | nil => simp at h
  | cons p rest ih =>
    by_cases hp : p.1 = n
    · exact ⟨p.2, by simp [lookupCol, hp]⟩
    · simp only [List.any_cons, Bool.or_eq_true, decide_eq_true_eq] at h
      rcases h with h | h
      · exact absurd h hp
      · obtain ⟨c, hc⟩ := ih h
        exact ⟨c, by simpa [lookupCol, hp] using hc⟩

lemma get?_setCol_self (df : DataFrame) (n : String) (c : Col) :
    (df.setCol n c).get? n = some c := by
  obtain ⟨l⟩ := df
  unfold DataFrame.setCol
  by_cases h : (⟨l⟩ : DataFrame).hasCol n = true
  · obtain ⟨d, hd⟩ := lookupCol_isSome_of_any l n h
    rw [if_pos h]
    show lookupCol (mapCol l n (fun _ => c)) n = some c
    rw [lookupCol_mapCol_self, hd]
    rfl
  · rw [if_neg h]
    show lookupCol (l ++ [(n, c)]) n = some c
    exact lookupCol_append_single_self l n c (Bool.eq_false_iff.mpr h)

lemma get?_setCol_ne (df : DataFrame) (n m : String) (c : Col) (h : m ≠ n) :
    (df.setCol n c).get? m = df.get? m := by
  obtain ⟨l⟩ := df
  unfold DataFrame.setCol
  by_cases hh : (⟨l⟩ : DataFrame).hasCol n = true
  · rw [if_pos hh]
    show lookupCol (mapCol l n (fun _ => c)) m = lookupCol l m
    exact lookupCol_mapCol_ne l n m _ h
  · rw [if_neg hh]
    show lookupCol (l ++ [(n, c)]) m = lookupCol l m
    exact lookupCol_append_single_ne l n m c h

lemma names_setCol_of_hasCol (df : DataFrame) (n : String) (c : Col)
    (h : df.hasCol n = true) :
    (df.setCol n c).names = df.names := by
  obtain ⟨l⟩ := df
  unfold DataFrame.setCol
  rw [if_pos h]
  show (mapCol l n (fun _ => c)).map Prod.fst = l.map Prod.fst
  exact names_mapCol l n _

lemma names_setCol_of_not_hasCol (df : DataFrame) (n : String) (c : Col)
    (h : df.hasCol n = false) :
    (df.setCol n c).names = df.names ++ [n] := by
  obtain ⟨l⟩ := df
  unfold DataFrame.setCol
  rw [if_neg (by simp [h])]
  simp [DataFrame.names]

lemma get?_locSet1_self (df : DataFrame) (n : String) (mask : List Bool) :
    (df.locSet1 n mask).get? n = (df.get? n).map (fun c => maskedSet1 c mask) := by
  obtain ⟨l⟩ := df
  show lookupCol (mapCol l n (fun c => maskedSet1 c mask)) n
      = Option.map (fun c => maskedSet1 c mask) (lookupCol l n)
  exact lookupCol_mapCol_self l n _

lemma get?_locSet1_ne (df : DataFrame) (n m : String) (mask : List Bool) (h : m ≠ n) :
    (df.locSet1 n mask).get? m = df.get? m := by
  obtain ⟨l⟩ := df
  show lookupCol (mapCol l n (fun c => maskedSet1 c mask)) m = lookupCol l m
  exact lookupCol_mapCol_ne l n m _ h

lemma names_locSet1 (df : DataFrame) (n : String) (mask : List Bool) :
    (df.locSet1 n mask).names = df.names := by
  obtain ⟨l⟩ := df
  show (mapCol l n (fun c => maskedSet1 c mask)).map Prod.fst = l.map Prod.fst
  exact names_mapCol l n _

lemma zipWith_map_same {α β γ δ : Type} (G : β → γ → δ) (f : α → β) (p : α → γ)
    (l : List α) :
    List.zipWith G (l.map f) (l.map p) = l.map (fun x => G (f x) (p x)) := by
  induction l with
  | nil => rfl
  | cons a t ih => simp [ih]

lemma maskedSet1_map (dept : Col) (g : Cell → Cell) (t b : ℚ) :
    maskedSet1 (dept.map g) (zoneMask dept t b)
      = dept.map (fun c => if cellGe c t && cellLe c b then some 1 else g c) := by
  unfold maskedSet1 zoneMask
  exact zipWith_map_same _ g _ dept

lemma map_const_eq_replicate (l : List Cell) (x : Cell) :
    l.map (fun _ => x) = List.replicate l.length x := by
  induction l with
  | nil => rfl
  | cons a t ih => simp [List.replicate, ih]

lemma nrows_setCol_replicate (df : DataFrame) (n : String) (x : Cell) :
    (df.setCol n (List.replicate df.nrows x)).nrows = df.nrows := by
  obtain ⟨l⟩ := df
  unfold DataFrame.setCol
  by_cases h : (⟨l⟩ : DataFrame).hasCol n = true
  · rw [if_pos h]
    cases l with
    | nil => rfl
    | cons p rest =>
      by_cases hp : p.1 = n
      · simp [mapCol, DataFrame.nrows, hp]
      · simp [mapCol, DataFrame.nrows, hp]
  · rw [if_neg h]
    cases l with
    | nil => rfl
    | cons p rest => rfl

lemma nrows_locSet1 (df : DataFrame) (n : String) (mask : List Bool) (col : Col)
    (h : df.get? n = some col) (hm : mask.length = col.length) :
    (df.locSet1 n mask).nrows = df.nrows := by
  obtain ⟨l⟩ := df
  cases l with
  | nil => rfl
  | cons p rest =>
    by_cases hp : p.1 = n
    · have hcol : p.2 = col := by
        have hx : lookupCol (p :: rest) n = some col := h
        simpa [lookupCol, hp] using hx
      show DataFrame.nrows ⟨mapCol (p :: rest) n _⟩ = _
      simp [mapCol, DataFrame.nrows, hp, maskedSet1, hcol, hm]
    · show DataFrame.nrows ⟨mapCol (p :: rest) n _⟩ = _
      simp [mapCol, DataFrame.nrows, hp]

/-- Invariant of the labeler loop: starting from a state whose
classification column is a pointwise function of the depth column, the loop
succeeds and ORs in each zone. -/
lemma addZones_loop_spec (zones : List (ℚ × ℚ)) (s : DataFrame) (dept : Col)
    (g : Cell → Cell)
    (hd : s.get? "DEPT" = some dept) (hc : s.get? hfc = some (dept.map g)) :
    ∃ out, zones.foldlM addZonesStep s = Except.ok out ∧
      out.get? hfc
        = some (dept.map (fun c => if inAnyZone zones c then some 1 else g c)) ∧
      (∀ n, n ≠ hfc → out.get? n = s.get? n) ∧
      out.names = s.names ∧
      out.nrows = s.nrows := by
  induction zones generalizing s g with
  | nil =>
    refine ⟨s, rfl, ?_, fun n _ => rfl, rfl, rfl⟩
    simpa [inAnyZone] using hc
  | cons z rest ih =>
    have hDne : ("DEPT" : String) ≠ hfc := by decide
    have hstep : addZonesStep s z
        = Except.ok (s.locSet1 hfc (zoneMask dept z.1 z.2)) := by
      simp [addZonesStep, hd]
    have hd' : (s.locSet1 hfc (zoneMask dept z.1 z.2)).get? "DEPT" = some dept := by
      rw [get?_locSet1_ne _ _ _ _ hDne]; exact hd
    have hc' : (s.locSet1 hfc (zoneMask dept z.1 z.2)).get? hfc
        = some (dept.map
            (fun c => if cellGe c z.1 && cellLe c z.2 then some 1 else g c)) := by
      rw [get?_locSet1_self, hc]
      simp only [Option.map_some']
      rw [maskedSet1_map]
    obtain ⟨out, h1, h2, h3, h4, h5⟩ :=
      ih (s.locSet1 hfc (zoneMask dept z.1 z.2))
        (fun c => if cellGe c z.1 && cellLe c z.2 then some 1 else g c) hd' hc'
    refine ⟨out, ?_, ?_, ?_, ?_, ?_⟩
    · rw [List.foldlM_cons, hstep]
      simpa using h1
    · rw [h2]
      have hfun : (fun c => if inAnyZone rest c then (some 1 : Cell)
            else if cellGe c z.1 && cellLe c z.2 then some 1 else g c)
          = (fun c => if inAnyZone (z :: rest) c then some 1 else g c) := by
        funext c
        simp only [inAnyZone, List.any_cons, Bool.or_eq_true]
        by_cases e1 : (cellGe c z.1 && cellLe c z.2) = true <;>
          by_cases e2 : (rest.any fun zz => cellGe c zz.1 && cellLe c zz.2) = true <;>
            simp [e1, e2]
      rw [hfun]
    · intro n hn
      rw [h3 n hn, get?_locSet1_ne _ _ _ _ hn]
    · rw [h4, names_locSet1]
    · rw [h5]
      refine nrows_locSet1 _ _ _ (dept.map g) hc ?_
      simp [zoneMask]

/-- Characterization of `add_productive_zones` on any table whose DEPT
column is present and has the shared row count: it succeeds, the
classification column is 1 exactly inside the union of the zones and 0
elsewhere, all other columns are untouched, and at most one column name is
added. -/
lemma add_spec (data : DataFrame) (zones : List (ℚ × ℚ)) (dept : Col)
    (hd : data.get? "DEPT" = some dept) (hlen : dept.length = data.nrows) :
    ∃ out, add_productive_zones data zones = Except.ok out ∧
      out.get? hfc = some (labelCol zones dept) ∧
      (∀ n, n ≠ hfc → out.get? n = data.get? n) ∧
      out.names = (if data.hasCol hfc then data.names else data.names ++ [hfc]) ∧
      out.nrows = data.nrows := by
  have hDne : ("DEPT" : String) ≠ hfc := by decide
  have hd0 : (data.setCol hfc (List.replicate data.nrows (some 0))).get? "DEPT"
      = some dept := by
    rw [get?_setCol_ne _ _ _ _ hDne]; exact hd
  have hc0 : (data.setCol hfc (List.replicate data.nrows (some 0))).get? hfc
      = some (dept.map (fun _ => (some 0 : Cell))) := by
    rw [get?_setCol_self]
    rw [map_const_eq_replicate, hlen]
  obtain ⟨out, h1, h2, h3, h4, h5⟩ :=
    addZones_loop_spec zones (data.setCol hfc (List.replicate data.nrows (some 0)))
      dept (fun _ => (some 0 : Cell)) hd0 hc0
  refine ⟨out, h1, ?_, ?_, ?_, ?_⟩
  · rw [h2]
    unfold labelCol
    have hfun : (fun c => if inAnyZone zones c then (some 1 : Cell) else some 0)
        = (fun c => some (if inAnyZone zones c then (1 : ℚ) else 0)) := by
      funext c
      by_cases h : inAnyZone zones c = true
      · simp [h]
      · simp [h]
    rw [hfun]
  · intro n hn
    rw [h3 n hn, get?_setCol_ne _ _ _ _ hn]
  · rw [h4]
    by_cases hh : data.hasCol hfc = true
    · rw [if_pos hh]
      exact names_setCol_of_hasCol _ _ _ hh
    · rw [if_neg hh]
      exact names_setCol_of_not_hasCol _ _ _ (Bool.eq_false_iff.mpr hh)
  · rw [h5]
    exact nrows_setCol_replicate _ _ _

lemma hasCol_iff_names (df : DataFrame) (n : String) :
    df.hasCol n = true ↔ n ∈ df.names := by
  obtain ⟨l⟩ := df
  simp only [DataFrame.hasCol, DataFrame.names, List.any_eq_true, List.mem_map]
  constructor
  · rintro ⟨p, hp, hpn⟩
    simp only [decide_eq_true_eq] at hpn
    exact ⟨p, hp, hpn⟩
  · rintro ⟨p, hp, hpn⟩
    exact ⟨p, hp, by simpa using hpn⟩

/-! Concrete tables used by witnesses. -/

/-- The depth column of the worked example (spec section 8). -/
def exDept : Col := [some 3690, some 3700, some 3750, some 3999, some 4010]

/-- A one-column table holding the example depth column. -/
def exTable : DataFrame := ⟨[("DEPT", exDept)]⟩

/-- A depth column with a missing (NaN) value in row 1. -/
def exDeptNaN : Col := [some 3690, none, some 3750]

/-- A one-column table whose depth column has a missing value. -/
def exTableNaN : DataFrame := ⟨[("DEPT", exDeptNaN)]⟩

/-- C1: the labeler adds a column named `formation_class` whose value is 1
on rows with depth inside some interval and 0 elsewhere.  Evaluated at the
spec's own worked example, the code produces the claimed 0/1 labels but
stores them in a column named `hydrocarbon_formation_class`; no column
`formation_class` exists in the output, although the function's docstring
says a `formation_class` column is added. -/
theorem claimC1_code_eval :
    (add_productive_zones exTable [(3700, 4000)]).toOption.map
      (fun out => (out.hasCol "formation_class",
        out.get? "hydrocarbon_formation_class"))
      = some (false, some [some 0, some 1, some 1, some 1, some 0]) := by decide

/-- C8: the labeler is idempotent: applying it to its own output with the
same intervals yields the same classification column as the first
application. -/
theorem claimC8 (data : DataFrame) (zones : List (ℚ × ℚ)) (dept : Col)
    (hd : data.get? "DEPT" = some dept) (hlen : dept.length = data.nrows) :
    ∃ out1 out2, add_productive_zones data zones = Except.ok out1 ∧
      add_productive_zones out1 zones = Except.ok out2 ∧
      out2.get? hfc = out1.get? hfc := by
  obtain ⟨out1, e1, c1, p1, n1, r1⟩ := add_spec data zones dept hd hlen
  have hd1 : out1.get? "DEPT" = some dept := by
    rw [p1 "DEPT" (by decide)]; exact hd
  have hlen1 : dept.length = out1.nrows := by rw [r1]; exact hlen
  obtain ⟨out2, e2, c2, p2, n2, r2⟩ := add_spec out1 zones dept hd1 hlen1
  exact ⟨out1, out2, e1, e2, by rw [c2, c1]⟩

theorem claimC8_witness :
    (exTable.get? "DEPT" = some exDept) ∧ (exDept.length = exTable.nrows) ∧
    (∃ out1 out2, add_productive_zones exTable [(3700, 4000)] = Except.ok out1 ∧
      add_productive_zones out1 [(3700, 4000)] = Except.ok out2 ∧
      out2.get? hfc = out1.get? hfc) :=
  ⟨by decide, by decide,
    claimC8 exTable [(3700, 4000)] exDept (by decide) (by decide)⟩

/-- C10: a row whose depth value is missing (NaN) is labeled 0 regardless
of the supplied intervals, since a missing depth satisfies no bound
comparison. -/
theorem claimC10 (data : DataFrame) (zones : List (ℚ × ℚ)) (dept : Col) (i : ℕ)
    (hd : data.get? "DEPT" = some dept) (hlen : dept.length = data.nrows)
    (hi : dept[i]? = some none) :
    ∃ out col, add_productive_zones data zones = Except.ok out ∧
      out.get? hfc = some col ∧ col[i]? = some (some 0) := by
  obtain ⟨out, e1, c1, _, _, _⟩ := add_spec data zones dept hd hlen
  refine ⟨out, labelCol zones dept, e1, c1, ?_⟩
  unfold labelCol
  rw [List.getElem?_map, hi]
  have hz : inAnyZone zones (none : Cell) = false := by
    simp [inAnyZone, cellGe]
  simp [hz]

theorem claimC10_witness :
    (exTableNaN.get? "DEPT" = some exDeptNaN) ∧
    (exDeptNaN.length = exTableNaN.nrows) ∧
    (exDeptNaN[1]? = some none) ∧
    (∃ out col, add_productive_zones exTableNaN [(3600, 3800)] = Except.ok out ∧
      out.get? hfc = some col ∧ col[1]? = some (some 0)) :=
  ⟨by decide, by decide, by decide,
    claimC10 exTableNaN [(3600, 3800)] exDeptNaN 1 (by decide) (by decide)
      (by decide)⟩

/-! The renderer `combo_plot`.  Track and curve configurations mirror the
dicts the source reads with `.get(key, default)`: an absent key is `none`
and the default is applied at the read site, exactly as in the source. -/

/-- One curve configuration dict (source docstring lines 28-38). -/
structure CurveConfig where
  column : String
  label : Option String := none
  color : Option String := none
  linestyle : Option String := none
  min_val : Option ℚ := none
  max_val : Option ℚ := none
  log_scale : Option Bool := none
  invert_axis : Option Bool := none
  position_offset : Option ℚ := none
  show_grid : Option Bool := none
deriving DecidableEq

/-- One track configuration dict (source docstring lines 23-27). -/
structure TrackConfig where
  title : Option String := none
  show_grid : Option Bool := none
  smoothing : Option String := none
  curves : List CurveConfig := []
deriving DecidableEq

/-- The major locator installed on an x axis: either the evenly spaced
`LinearLocator(numticks=k)` or the logarithmically spaced
`LogLocator(numticks=k)`. -/
inductive Locator where
  | linear (numticks : ℕ)
  | log (numticks : ℕ)
deriving DecidableEq

/-- The state the code installs on one twin x axis and its curve. -/
structure RenderedCurve where
  column : String
  xlabel : String
  color : String
  linestyle : String
  xlim : Option (ℚ × ℚ)
  logScale : Bool
  inverted : Bool
  offset : ℚ
  xs : Col
  depths : Col
  gridLocator : Option Locator
deriving DecidableEq

/-- One rendered track region. -/
structure RenderedTrack where
  title : String
  titlePad : ℚ
  warnings : List String
  curves : List RenderedCurve
deriving DecidableEq

/-- The figure object the renderer returns. -/
structure Figure where
  tracks : List RenderedTrack
  yLim : ℚ × ℚ
  yInverted : Bool
  figureHeight : ℚ
  subplotAdjustTop : ℚ
  majorTicksInterval : ℚ
  minorTicksInterval : ℚ
  formationLines : List (String × ℚ)
deriving DecidableEq

/-- Row mask `(data[depth] >= top) & (data[depth] <= bottom)`. -/
def depthMask (dept : Col) (top bottom : ℚ) : List Bool :=
  dept.map (fun c => cellGe c top && cellLe c bottom)

/-- Keep the cells of a column at the rows where the mask is true. -/
def applyMask (c : Col) (mask : List Bool) : Col :=
  ((c.zip mask).filter (fun x => x.2)).map Prod.fst

/-- `data[mask]`: keep, in every column, the rows where the mask is true
(a new frame, as pandas boolean indexing returns a copy). -/
def filterByMask (df : DataFrame) (mask : List Bool) : DataFrame :=
  ⟨df.cols.map (fun p => (p.1, applyMask p.2 mask))⟩

/-- Value at a clamped index, modelling the `nearest` edge extension that
pads a sequence with its first and last values. -/
def sgGet (vs : List ℚ) (i : ℤ) : ℚ :=
  vs.getD (min (max i 0).toNat (vs.length - 1)) 0

/-- `scipy.signal.savgol_filter(vs, window_length=5, polyorder=3,
mode="nearest")` over exact rationals: convolution of the nearest-padded
sequence with the degree-3 least-squares coefficients
(-3, 12, 17, 12, -3)/35 for a 5-point window. -/
def savgolNearest53 (vs : List ℚ) : List ℚ :=
  (List.range vs.length).map (fun (i : ℕ) =>
    (-3 * sgGet vs ((i : ℤ) - 2) + 12 * sgGet vs ((i : ℤ) - 1)
      + 17 * sgGet vs (i : ℤ)
      + 12 * sgGet vs ((i : ℤ) + 1) + -3 * sgGet vs ((i : ℤ) + 2)) / 35)

/-- Write the values back at the non-missing row positions
(`logs.loc[valid_data.index, col] = smoothed`). -/
def scatterBack : Col → List ℚ → Col
  | [], _ => []
  | none :: cs, vs => none :: scatterBack cs vs
  | some x :: cs, [] => some x :: scatterBack cs []
  | some _ :: cs, v :: vs => some v :: scatterBack cs vs

/-- Smoothing of one column (source lines 100-103): drop the missing
values, and when more than 5 values remain, replace them in place by their
Savitzky-Golay filtering; otherwise leave the column unchanged. -/
def smoothColumn (c : Col) : Col :=
  let valid := c.filterMap id
  if 5 < valid.length then scatterBack c (savgolNearest53 valid) else c

/-- One smoothing step for one curve of a smoothed track: a column absent
from the frame is skipped. -/
def smoothCurveStep (lg : DataFrame) (cv : CurveConfig) : DataFrame :=
  match lg.get? cv.column with
  | some c => lg.setCol cv.column (smoothColumn c)
  | none => lg

/-- Smoothing for one track (source lines 94-103): applied only when the
track smoothing setting reads "yes" (default "no"). -/
def smoothTrack (lg : DataFrame) (tr : TrackConfig) : DataFrame :=
  if tr.smoothing.getD "no" = "yes" then tr.curves.foldl smoothCurveStep lg
  else lg

/-- The full smoothing pass over all tracks (source lines 92-103). -/
def smoothingPass (tracks : List TrackConfig) (lg : DataFrame) : DataFrame :=
  tracks.foldl smoothTrack lg

/-- Largest position offset among the curves of a track, 0 for an empty
curve list (source line 111). -/
def maxOffset (curves : List CurveConfig) : ℚ :=
  match curves.map (fun cv => cv.position_offset.getD 0) with
  | [] => 0
  | x :: xs => xs.foldl max x

/-- Rendering of one curve (source lines 119-172): skip when the column is
absent; otherwise record the twin-axis state the code installs: scale
bounds only when both are given, log scale, axis inversion, spine offset,
the plotted series, and the major locator when the resolved grid setting
is on. -/
def renderCurve (logs : DataFrame) (depth_column : String) (trackShowGrid : Bool)
    (numVerticalGridlines : ℕ) (cv : CurveConfig) : Option RenderedCurve :=
  match logs.get? cv.column with
  | none => none
  | some xs =>
    some
      { column := cv.column
        xlabel := cv.label.getD cv.column
        color := cv.color.getD "black"
        linestyle := cv.linestyle.getD "-"
        xlim :=
          match cv.min_val, cv.max_val with
          | some a, some b => some (a, b)
          | _, _ => none
        logScale := cv.log_scale.getD false
        inverted := cv.invert_axis.getD false
        offset := cv.position_offset.getD 0
        xs := xs
        depths := (logs.get? depth_column).getD []
        gridLocator :=
          if cv.show_grid.getD trackShowGrid then
            some (if cv.log_scale.getD false
              then Locator.log numVerticalGridlines
              else Locator.linear numVerticalGridlines)
          else none }

/-- Rendering of one track (source lines 106-172): title with pad from the
maximal curve offset, a warning per absent column, and the rendered
curves in order. -/
def renderTrack (logs : DataFrame) (depth_column : String)
    (numVerticalGridlines : ℕ) (idx : ℕ) (tr : TrackConfig) : RenderedTrack :=
  { title := tr.title.getD ("Track " ++ toString (idx + 1))
    titlePad := maxOffset tr.curves + 60
    warnings := tr.curves.filterMap (fun cv =>
      if logs.hasCol cv.column then none
      else some ("Warning: Column " ++ cv.column
        ++ " not found in DataFrame. Skipping."))
    curves := tr.curves.filterMap
      (renderCurve logs depth_column (tr.show_grid.getD true)
        numVerticalGridlines) }

/-- The figure assembled from the working frame (source lines 70-187). -/
def renderFigure (logs : DataFrame) (tracks_config : List TrackConfig)
    (depth_column : String)
    (top_depth bottom_depth figure_height subplot_adjust_top
      major_ticks_interval minor_ticks_interval : ℚ)
    (num_vertical_gridlines : ℕ) (formation : Option (List (String × ℚ))) :
    Figure :=
  { tracks := tracks_config.enum.map (fun p =>
      renderTrack logs depth_column num_vertical_gridlines p.1 p.2)
    yLim := (top_depth, bottom_depth)
    yInverted := true
    figureHeight := figure_height
    subplotAdjustTop := subplot_adjust_top
    majorTicksInterval := major_ticks_interval
    minorTicksInterval := minor_ticks_interval
    formationLines := (formation.getD []).filter (fun p =>
      decide (top_depth ≤ p.2) && decide (p.2 ≤ bottom_depth)) }

/-- `combo_plot` (source lines 8-187).  The depth filter runs first; the
figure and axes are then created, which fails for an empty tracks list
(`plt.subplots` rejects zero columns and `axes[0]` has no element); then
the smoothing pass runs on the working copy and the tracks are rendered
from it. -/
def combo_plot (data : DataFrame) (tracks_config : List TrackConfig)
    (depth_column : String)
    (top_depth bottom_depth figure_height subplot_adjust_top
      major_ticks_interval minor_ticks_interval : ℚ)
    (num_vertical_gridlines : ℕ) (formation : Option (List (String × ℚ))) :
    Except String Figure :=
  match data.get? depth_column with
  | none => .error ("KeyError: " ++ depth_column)
  | some dept =>
    let logs := filterByMask data (depthMask dept top_depth bottom_depth)
    if tracks_config.isEmpty then
      .error "ValueError: number of columns must be a positive integer"
    else
      let logs2 := smoothingPass tracks_config logs
      .ok (renderFigure logs2 tracks_config depth_column top_depth bottom_depth
        figure_height subplot_adjust_top major_ticks_interval
        minor_ticks_interval num_vertical_gridlines formation)

/-- Whether the renderer raised. -/
def isFatal : Except String Figure → Bool
  | .error _ => true
  | .ok _ => false

/-- All rendered curves of a figure, across its tracks. -/
def Figure.allCurves (f : Figure) : List RenderedCurve :=
  f.tracks.flatMap RenderedTrack.curves

/-- Whether a rendered curve has the fixed-count major locator with
`numticks = k` installed on its horizontal axis. -/
def hasNTicks (k : ℕ) (rc : RenderedCurve) : Bool :=
  match rc.gridLocator with
  | some (Locator.linear m) => decide (m = k)
  | some (Locator.log m) => decide (m = k)
  | none => false

/-! Frame lemmas for the renderer pipeline. -/

lemma get?_filterByMask (df : DataFrame) (mask : List Bool) (n : String) :
    (filterByMask df mask).get? n = (df.get? n).map (fun c => applyMask c mask) := by
  obtain ⟨l⟩ := df
  show lookupCol (l.map (fun p => (p.1, applyMask p.2 mask))) n
      = Option.map (fun c => applyMask c mask) (lookupCol l n)
  induction l with
  | nil => rfl
  | cons p rest ih =>
    by_cases hp : p.1 = n
    · simp [lookupCol, hp]
    · simpa [lookupCol, hp] using ih

lemma applyMask_self_pred (c : Col) (p : Cell → Bool) :
    applyMask c (c.map p) = c.filter p := by
  induction c with
  | nil => rfl
  | cons a t ih =>
    by_cases hp : p a = true
    · simpa [applyMask, List.filter_cons, hp] using ih
    · simpa [applyMask, List.filter_cons, hp] using ih

lemma names_filterByMask (df : DataFrame) (mask : List Bool) :
    (filterByMask df mask).names = df.names := by
  show (df.cols.map (fun p => (p.1, applyMask p.2 mask))).map Prod.fst
      = df.cols.map Prod.fst
  rw [List.map_map]
  rfl

lemma any_of_lookupCol_some (l : List (String × Col)) (n : String) (c : Col)
    (h : lookupCol l n = some c) :
    l.any (fun p => decide (p.1 = n)) = true := by
  induction l with
  | nil => cases h
  | cons p rest ih =>
    by_cases hp : p.1 = n
    · simp [List.any_cons, hp]
    · have hr : lookupCol rest n = some c := by simpa [lookupCol, hp] using h
      simp [List.any_cons, hp, ih hr]

lemma hasCol_of_get?_some (df : DataFrame) (n : String) (c : Col)
    (h : df.get? n = some c) : df.hasCol n = true :=
  any_of_lookupCol_some df.cols n c h

lemma lookupCol_eq_none_of_any_false (l : List (String × Col)) (n : String)
    (h : l.any (fun p => decide (p.1 = n)) = false) :
    lookupCol l n = none := by
  induction l with
  | nil => rfl
  | cons p rest ih =>
    simp only [List.any_cons, Bool.or_eq_false_iff, decide_eq_false_iff_not] at h
    simpa [lookupCol, h.1] using ih (by simpa using h.2)

lemma get?_eq_none_of_not_hasCol (df : DataFrame) (n : String)
    (h : df.hasCol n = false) : df.get? n = none :=
  lookupCol_eq_none_of_any_false df.cols n h

lemma names_smoothCurveStep (lg : DataFrame) (cv : CurveConfig) :
    (smoothCurveStep lg cv).names = lg.names := by
  unfold smoothCurveStep
  cases h : lg.get? cv.column with
  | none => rfl
  | some c => exact names_setCol_of_hasCol _ _ _ (hasCol_of_get?_some _ _ _ h)

lemma names_foldl_smoothCurveStep (cvs : List CurveConfig) (lg : DataFrame) :
    (cvs.foldl smoothCurveStep lg).names = lg.names := by
  induction cvs generalizing lg with
  | nil => rfl
  | cons cv rest ih => rw [List.foldl_cons, ih, names_smoothCurveStep]

lemma names_smoothTrack (lg : DataFrame) (tr : TrackConfig) :
    (smoothTrack lg tr).names = lg.names := by
  unfold smoothTrack
  by_cases h : tr.smoothing.getD "no" = "yes"
  · rw [if_pos h]
    exact names_foldl_smoothCurveStep _ _
  · rw [if_neg h]

lemma names_smoothingPass (tracks : List TrackConfig) (lg : DataFrame) :
    (smoothingPass tracks lg).names = lg.names := by
  unfold smoothingPass
  induction tracks generalizing lg with
  | nil => rfl
  | cons tr rest ih => rw [List.foldl_cons, ih, names_smoothTrack]

lemma hasCol_congr_names (A B : DataFrame) (n : String) (h : A.names = B.names) :
    A.hasCol n = B.hasCol n := by
  by_cases hA : A.hasCol n = true
  · rw [hA, ((hasCol_iff_names B n).mpr (h ▸ (hasCol_iff_names A n).mp hA))]
  · by_cases hB : B.hasCol n = true
    · exact absurd ((hasCol_iff_names A n).mpr
        (h ▸ (hasCol_iff_names B n).mp hB)) hA
    · rw [Bool.eq_false_iff.mpr hA, Bool.eq_false_iff.mpr hB]

lemma isEmpty_false_of_ne_nil {α : Type} (l : List α) (h : l ≠ []) :
    l.isEmpty = false := by
  cases l with
  | nil => exact absurd rfl h
  | cons a t => rfl

/-- Reduction of `combo_plot` on a present depth column and a nonempty
tracks list. -/
lemma combo_plot_ok (data : DataFrame) (tracks : List TrackConfig)
    (depth_column : String)
    (top bottom fh sat mti mnti : ℚ) (N : ℕ)
    (formation : Option (List (String × ℚ))) (dept : Col)
    (hd : data.get? depth_column = some dept) (hne : tracks ≠ []) :
    combo_plot data tracks depth_column top bottom fh sat mti mnti N formation
      = Except.ok (renderFigure
          (smoothingPass tracks (filterByMask data (depthMask dept top bottom)))
          tracks depth_column top bottom fh sat mti mnti N formation) := by
  unfold combo_plot
  rw [hd]
  simp [isEmpty_false_of_ne_nil tracks hne]

/-- C3 counterexample: the renderer called with an empty tracks list does
not complete; it raises while allocating the track regions. -/
theorem claimC3_counterexample :
    isFatal (combo_plot exTable [] "DEPT" 3600 3900 12 (9/10) 100 20 5 none)
      = true := by decide

/-- C3 (amended): with an empty tracks list the renderer raises; for a
nonempty tracks list on a table containing the depth column it completes
without a fatal error. -/
theorem claimC3 (data : DataFrame) (tracks : List TrackConfig)
    (depth_column : String) (top bottom fh sat mti mnti : ℚ) (N : ℕ)
    (formation : Option (List (String × ℚ))) (dept : Col)
    (hd : data.get? depth_column = some dept) (hne : tracks ≠ []) :
    isFatal (combo_plot data tracks depth_column top bottom fh sat mti mnti N
      formation) = false := by
  rw [combo_plot_ok data tracks depth_column top bottom fh sat mti mnti N
    formation dept hd hne]
  rfl

theorem claimC3_witness :
    (exTable.get? "DEPT" = some exDept) ∧
    (([{ curves := [] }] : List TrackConfig) ≠ []) ∧
    isFatal (combo_plot exTable [{ curves := [] }] "DEPT" 3600 3900 12 (9/10)
      100 20 5 none) = false :=
  ⟨by decide, by decide,
    claimC3 exTable [{ curves := [] }] "DEPT" 3600 3900 12 (9/10) 100 20 5 none
      exDept (by decide) (by decide)⟩

/-- C7: the working rows are exactly those with top <= depth <= bottom,
both endpoints inclusive and in original order, and the rendered figure is
assembled from this filtered copy after the smoothing pass. -/
theorem claimC7 (data : DataFrame) (tracks : List TrackConfig)
    (depth_column : String) (top bottom fh sat mti mnti : ℚ) (N : ℕ)
    (formation : Option (List (String × ℚ))) (dept : Col)
    (hd : data.get? depth_column = some dept) (hne : tracks ≠ []) :
    (filterByMask data (depthMask dept top bottom)).get? depth_column
        = some (dept.filter (fun c => cellGe c top && cellLe c bottom)) ∧
    combo_plot data tracks depth_column top bottom fh sat mti mnti N formation
      = Except.ok (renderFigure
          (smoothingPass tracks (filterByMask data (depthMask dept top bottom)))
          tracks depth_column top bottom fh sat mti mnti N formation) := by
  refine ⟨?_, combo_plot_ok data tracks depth_column top bottom fh sat mti mnti
    N formation dept hd hne⟩
  rw [get?_filterByMask, hd]
  simp only [Option.map_some']
  rw [depthMask, applyMask_self_pred]

theorem claimC7_witness :
    (exTable.get? "DEPT" = some exDept) ∧
    (([{ curves := [] }] : List TrackConfig) ≠ []) ∧
    ((filterByMask exTable (depthMask exDept 3700 4000)).get? "DEPT"
        = some (exDept.filter (fun c => cellGe c 3700 && cellLe c 4000)) ∧
    combo_plot exTable [{ curves := [] }] "DEPT" 3700 4000 12 (9/10) 100 20 5
      none
      = Except.ok (renderFigure
          (smoothingPass [{ curves := [] }]
            (filterByMask exTable (depthMask exDept 3700 4000)))
          [{ curves := [] }] "DEPT" 3700 4000 12 (9/10) 100 20 5 none)) :=
  ⟨by decide, by decide,
    claimC7 exTable [{ curves := [] }] "DEPT" 3700 4000 12 (9/10) 100 20 5 none
      exDept (by decide) (by decide)⟩

/-- C9: scale bounds are applied only when both min_val and max_val are
present: a curve configuration carrying exactly one of them renders with no
x-limits installed (the axis autoscales). -/
theorem claimC9 (logs : DataFrame) (depth_column : String) (tg : Bool) (N : ℕ)
    (cv : CurveConfig) (xs : Col)
    (h : logs.get? cv.column = some xs)
    (hone : cv.min_val.isSome ≠ cv.max_val.isSome) :
    ∃ rc, renderCurve logs depth_column tg N cv = some rc ∧ rc.xlim = none := by
  refine ⟨_, by unfold renderCurve; rw [h], ?_⟩
  cases hmin : cv.min_val with
  | none =>
    cases hmax : cv.max_val with
    | none => simp [hmin, hmax]
    | some b => simp [hmin, hmax]
  | some a =>
    cases hmax : cv.max_val with
    | none => simp [hmin, hmax]
    | some b =>
      rw [hmin, hmax] at hone
      simp at hone

/-- A curve with only min_val given. -/
def exCurveMinOnly : CurveConfig := { column := "GR", min_val := some 0 }

/-- A two-column table for renderer witnesses. -/
def exTable2 : DataFrame :=
  ⟨[("DEPT", [some 1, some 2]), ("GR", [some 10, some 20])]⟩

theorem claimC9_witness :
    (exTable2.get? "GR" = some [some 10, some 20]) ∧
    (exCurveMinOnly.min_val.isSome ≠ exCurveMinOnly.max_val.isSome) ∧
    (∃ rc, renderCurve exTable2 "DEPT" true 5 exCurveMinOnly = some rc ∧
      rc.xlim = none) :=
  ⟨by decide, by decide,
    claimC9 exTable2 "DEPT" true 5 exCurveMinOnly [some 10, some 20] (by decide)
      (by decide)⟩

/-- A curve whose grid is switched off at curve level. -/
def exCurveNoGrid : CurveConfig := { column := "GR", show_grid := some false }

/-- A track holding just the no-grid curve. -/
def exTrackNoGrid : TrackConfig := { title := some "T", curves := [exCurveNoGrid] }

/-- C2 counterexample: a curve whose resolved show_grid is false is
rendered with no fixed-count locator at all (the axis keeps the default
automatic locator), so not every rendered curve has
num_vertical_gridlines major gridline positions. -/
theorem claimC2_counterexample :
    ((combo_plot exTable2 [exTrackNoGrid] "DEPT" 0 10 12 (9/10) 1 1 5
        none).toOption.map
      (fun f => (f.allCurves.length, f.allCurves.all (hasNTicks 5))))
      = some (1, false) := by decide

/-- C2 (amended): exactly the curves whose resolved show_grid (curve-level
value if present, else the track-level value) is true get the fixed-count
major locator with numticks = num_vertical_gridlines, logarithmically
spaced when the curve uses a log scale and evenly spaced otherwise; a curve
whose resolved show_grid is false gets no such locator. -/
theorem claimC2 (logs : DataFrame) (depth_column : String) (tg : Bool) (N : ℕ)
    (cv : CurveConfig) (rc : RenderedCurve)
    (h : renderCurve logs depth_column tg N cv = some rc) :
    rc.gridLocator
      = (if cv.show_grid.getD tg then
          some (if cv.log_scale.getD false then Locator.log N
            else Locator.linear N)
        else none) := by
  unfold renderCurve at h
  cases hcol : logs.get? cv.column with
  | none => rw [hcol] at h; cases h
  | some xs =>
    rw [hcol] at h
    cases h
    rfl

theorem claimC2_witness :
    (renderCurve exTable2 "DEPT" true 5 exCurveNoGrid
        = some { column := "GR", xlabel := "GR", color := "black",
                 linestyle := "-", xlim := none, logScale := false,
                 inverted := false, offset := 0, xs := [some 10, some 20],
                 depths := [some 1, some 2], gridLocator := none }) ∧
    (({ column := "GR", xlabel := "GR", color := "black",
        linestyle := "-", xlim := none, logScale := false,
        inverted := false, offset := 0, xs := [some 10, some 20],
        depths := [some 1, some 2], gridLocator := none } :
          RenderedCurve).gridLocator
      = (if exCurveNoGrid.show_grid.getD true then
          some (if exCurveNoGrid.log_scale.getD false then Locator.log 5
            else Locator.linear 5)
        else none)) :=
  ⟨by decide, claimC2 exTable2 "DEPT" true 5 exCurveNoGrid _ (by decide)⟩

lemma length_filterMap_all_some {α β : Type} (f : α → Option β) (l : List α)
    (h : ∀ x ∈ l, (f x).isSome = true) :
    (l.filterMap f).length = l.length := by
  induction l with
  | nil => rfl
  | cons a t ih =>
    cases hf : f a with
    | none =>
      have hx := h a (List.mem_cons_self a t)
      rw [hf] at hx
      simp at hx
    | some b =>
      rw [List.filterMap_cons_some hf]
      simp only [List.length_cons]
      rw [ih (fun x hx => h x (List.mem_cons_of_mem a hx))]

/-- C6: a curve whose column is absent is skipped with a warning and
rendering continues; when every curve of a track references an absent
column, the call still succeeds and that track renders no curves, with one
warning per curve. -/
theorem claimC6 (data : DataFrame) (tracks : List TrackConfig)
    (depth_column : String) (top bottom fh sat mti mnti : ℚ) (N : ℕ)
    (formation : Option (List (String × ℚ))) (dept : Col) (i : ℕ)
    (tr : TrackConfig)
    (hd : data.get? depth_column = some dept)
    (hi : tracks[i]? = some tr)
    (hall : ∀ cv ∈ tr.curves, data.hasCol cv.column = false) :
    ∃ fig, combo_plot data tracks depth_column top bottom fh sat mti mnti N
        formation = Except.ok fig ∧
      ∃ t, fig.tracks[i]? = some t ∧ t.curves = [] ∧
        t.warnings.length = tr.curves.length := by
  have hne : tracks ≠ [] := by
    intro hnil
    rw [hnil] at hi
    simp at hi
  refine ⟨_, combo_plot_ok data tracks depth_column top bottom fh sat mti mnti
    N formation dept hd hne, ?_⟩
  have hlogs : ∀ cv ∈ tr.curves,
      (smoothingPass tracks
        (filterByMask data (depthMask dept top bottom))).hasCol cv.column
        = false := by
    intro cv hcv
    rw [hasCol_congr_names _ data cv.column]
    · exact hall cv hcv
    · rw [names_smoothingPass, names_filterByMask]
  refine ⟨renderTrack
      (smoothingPass tracks (filterByMask data (depthMask dept top bottom)))
      depth_column N i tr, ?_, ?_, ?_⟩
  · show (tracks.enum.map _)[i]? = _
    rw [List.getElem?_map, List.getElem?_enum, hi]
    rfl
  · show tr.curves.filterMap _ = []
    rw [List.filterMap_eq_nil_iff]
    intro cv hcv
    unfold renderCurve
    rw [get?_eq_none_of_not_hasCol _ _ (hlogs cv hcv)]
  · show (tr.curves.filterMap _).length = _
    refine length_filterMap_all_some _ _ ?_
    intro cv hcv
    rw [hlogs cv hcv]
    rfl

/-- A track whose curves all reference columns absent from the table. -/
def exTrackMissing : TrackConfig :=
  { title := some "M", curves := [{ column := "NPHI" }, { column := "RHOB" }] }

theorem claimC6_witness :
    (exTable2.get? "DEPT" = some [some 1, some 2]) ∧
    (([exTrackMissing] : List TrackConfig)[0]? = some exTrackMissing) ∧
    (∀ cv ∈ exTrackMissing.curves, exTable2.hasCol cv.column = false) ∧
    (∃ fig, combo_plot exTable2 [exTrackMissing] "DEPT" 0 10 12 (9/10) 1 1 5
        none = Except.ok fig ∧
      ∃ t, fig.tracks[0]? = some t ∧ t.curves = [] ∧
        t.warnings.length = exTrackMissing.curves.length) :=
  ⟨by decide, by decide, by decide,
    claimC6 exTable2 [exTrackMissing] "DEPT" 0 10 12 (9/10) 1 1 5 none
      [some 1, some 2] 0 exTrackMissing (by decide) (by decide) (by decide)⟩

/-! Smoothing lemmas (claim C5). -/

lemma filterMap_id_replicate_none (a : ℕ) :
    (List.replicate a (none : Cell)).filterMap id = [] := by
  induction a with
  | zero => rfl
  | succ k ih => simp [List.replicate_succ, List.filterMap_cons, ih]

lemma filterMap_id_map_some (vs : List ℚ) :
    ((vs.map some : Col)).filterMap id = vs := by
  induction vs with
  | nil => rfl
  | cons v t ih => simp [List.filterMap_cons, ih]

lemma scatterBack_nil_right (c : Col) : scatterBack c [] = c := by
  induction c with
  | nil => rfl
  | cons x t ih => cases x <;> simp [scatterBack, ih]

lemma scatterBack_replicate_none_left (a : ℕ) (rest : Col) (ws : List ℚ) :
    scatterBack (List.replicate a none ++ rest) ws
      = List.replicate a none ++ scatterBack rest ws := by
  induction a with
  | zero => rfl
  | succ k ih => simp [List.replicate_succ, scatterBack, ih]

lemma scatterBack_map_some_exact (vals : List ℚ) (ws : List ℚ) (rest : Col)
    (h : ws.length = vals.length) :
    scatterBack (vals.map some ++ rest) ws
      = ws.map some ++ scatterBack rest [] := by
  induction vals generalizing ws with
  | nil =>
    cases ws with
    | nil => rfl
    | cons w wt => simp at h
  | cons v vt ih =>
    cases ws with
    | nil => simp at h
    | cons w wt =>
      simp only [List.map_cons, List.cons_append, scatterBack, List.append_eq]
      rw [ih wt (by simpa using h)]

lemma length_savgolNearest53 (vs : List ℚ) :
    (savgolNearest53 vs).length = vs.length := by
  unfold savgolNearest53
  rw [List.length_map, List.length_range]

/-- Shape of one smoothed column whose non-missing values form one
contiguous run: the run is replaced, in place, by its Savitzky-Golay
filtering when it has more than 5 values, and kept unchanged otherwise. -/
lemma smoothColumn_shape (a b : ℕ) (vals : List ℚ) :
    smoothColumn (List.replicate a none ++ vals.map some
        ++ List.replicate b none)
      = (if 5 < vals.length
         then List.replicate a none ++ (savgolNearest53 vals).map some
            ++ List.replicate b none
         else List.replicate a none ++ vals.map some
            ++ List.replicate b none) := by
  have hvalid : ((List.replicate a (none : Cell) ++ vals.map some
      ++ List.replicate b none)).filterMap id = vals := by
    rw [List.filterMap_append, List.filterMap_append,
      filterMap_id_replicate_none, filterMap_id_map_some,
      filterMap_id_replicate_none]
    simp
  simp only [smoothColumn]
  rw [hvalid]
  by_cases h : 5 < vals.length
  · rw [if_pos h, if_pos h]
    rw [List.append_assoc, scatterBack_replicate_none_left,
      scatterBack_map_some_exact _ _ _ (length_savgolNearest53 vals),
      scatterBack_nil_right, List.append_assoc]
  · rw [if_neg h, if_neg h]

lemma foldl_smoothCurveStep_not_ref (cvs : List CurveConfig) (lg : DataFrame)
    (col : String) (hz : ∀ cv ∈ cvs, cv.column ≠ col) :
    (cvs.foldl smoothCurveStep lg).get? col = lg.get? col := by
  induction cvs generalizing lg with
  | nil => rfl
  | cons cv rest ih =>
    rw [List.foldl_cons,
      ih _ (fun c hc => hz c (List.mem_cons_of_mem _ hc))]
    unfold smoothCurveStep
    cases h : lg.get? cv.column with
    | none => rfl
    | some c =>
      exact get?_setCol_ne _ _ _ _
        (fun hh => hz cv (List.mem_cons_self _ _) hh.symm)

lemma foldl_smoothCurveStep_once (cvs : List CurveConfig) (lg : DataFrame)
    (col : String) (c : Col)
    (honce : (cvs.map (fun cv => cv.column)).count col = 1)
    (hc : lg.get? col = some c) :
    (cvs.foldl smoothCurveStep lg).get? col = some (smoothColumn c) := by
  induction cvs generalizing lg c with
  | nil => simp at honce
  | cons cv rest ih =>
    rw [List.foldl_cons]
    by_cases hcv : cv.column = col
    · have hrest : (rest.map (fun cv => cv.column)).count col = 0 := by
        simp only [List.map_cons, List.count_cons, hcv] at honce
        simpa using honce
      have hz : ∀ cv2 ∈ rest, cv2.column ≠ col := by
        intro cv2 h2 hcol2
        have : col ∈ rest.map (fun cv => cv.column) :=
          hcol2 ▸ List.mem_map_of_mem _ h2
        rw [List.count_eq_zero] at hrest
        exact hrest this
      have hstep : (smoothCurveStep lg cv).get? col = some (smoothColumn c) := by
        unfold smoothCurveStep
        rw [hcv, hc]
        exact get?_setCol_self lg col (smoothColumn c)
      rw [foldl_smoothCurveStep_not_ref rest _ col hz, hstep]
    · have hone1 : (rest.map (fun cv => cv.column)).count col = 1 := by
        simp only [List.map_cons, List.count_cons] at honce
        simpa [hcv] using honce
      have hpres : (smoothCurveStep lg cv).get? col = some c := by
        unfold smoothCurveStep
        cases h : lg.get? cv.column with
        | none => exact hc
        | some d =>
          rw [get?_setCol_ne _ _ _ _ (fun hh => hcv hh.symm)]
          exact hc
      exact ih _ _ hone1 hpres

/-- C5: in a track whose smoothing setting is "yes", a column referenced by
exactly one of the track's curves and whose non-missing values form one
contiguous run is replaced in the working copy by the Savitzky-Golay
filtering (window 5, polyorder 3, nearest edges) of that run, each value
staying at its row; a run of at most 5 values is left unsmoothed. -/
theorem claimC5 (lg : DataFrame) (tr : TrackConfig) (col : String)
    (a b : ℕ) (vals : List ℚ)
    (hyes : tr.smoothing.getD "no" = "yes")
    (honce : (tr.curves.map (fun cv => cv.column)).count col = 1)
    (hc : lg.get? col
      = some (List.replicate a none ++ vals.map some
          ++ List.replicate b none)) :
    (smoothTrack lg tr).get? col
      = some (if 5 < vals.length
          then List.replicate a none ++ (savgolNearest53 vals).map some
             ++ List.replicate b none
          else List.replicate a none ++ vals.map some
             ++ List.replicate b none) := by
  unfold smoothTrack
  rw [if_pos hyes]
  rw [foldl_smoothCurveStep_once tr.curves lg col _ honce hc]
  rw [smoothColumn_shape]

/-- A smoothing track referencing the GR column once. -/
def exTrackSmooth : TrackConfig :=
  { smoothing := some "yes", curves := [{ column := "GR" }] }

/-- A six-value GR run preceded by one missing cell. -/
def exValsSmooth : List ℚ := [10, 20, 10, 20, 10, 20]

/-- The frame the smoothing witness runs on. -/
def exTableSmooth : DataFrame :=
  ⟨[("DEPT", [some 1, some 2, some 3, some 4, some 5, some 6, some 7]),
    ("GR", (List.replicate 1 none ++ exValsSmooth.map some
      ++ List.replicate 0 none : Col))]⟩

theorem claimC5_witness :
    (exTrackSmooth.smoothing.getD "no" = "yes") ∧
    ((exTrackSmooth.curves.map (fun cv => cv.column)).count "GR" = 1) ∧
    (exTableSmooth.get? "GR"
      = some (List.replicate 1 none ++ exValsSmooth.map some
          ++ List.replicate 0 none)) ∧
    ((smoothTrack exTableSmooth exTrackSmooth).get? "GR"
      = some (if 5 < exValsSmooth.length
          then List.replicate 1 none ++ (savgolNearest53 exValsSmooth).map some
             ++ List.replicate 0 none
          else List.replicate 1 none ++ exValsSmooth.map some
             ++ List.replicate 0 none)) :=
  ⟨by decide, by decide, by decide,
    claimC5 exTableSmooth exTrackSmooth "GR" 1 0 exValsSmooth (by decide)
      (by decide) (by decide)⟩

/-! Heap model (claim C4).  Python objects live on a heap addressed by
references; `df.copy()` allocates a fresh object, and the in-place pandas
updates write through the reference they are invoked on.  Both functions
are replayed against the heap so that it can be stated that no write goes
through the caller's reference. -/

/-- A heap of DataFrame objects; a reference is an index. -/
abbrev Heap := List DataFrame

/-- Dereference. -/
def heapGet (h : Heap) (r : ℕ) : Option DataFrame := h[r]?

/-- Write through a reference. -/
def heapSet (h : Heap) (r : ℕ) (df : DataFrame) : Heap := h.set r df

/-- Allocate a fresh object, returning its reference. -/
def heapAlloc (h : Heap) (df : DataFrame) : Heap × ℕ := (h ++ [df], h.length)

/-- One labeler loop iteration through the heap: read the result object and
its DEPT column, write the masked update back through the result
reference. -/
def addZonesStepH (res : ℕ) (st : Heap × Except String Unit) (z : ℚ × ℚ) :
    Heap × Except String Unit :=
  match st.2 with
  | .error e => (st.1, .error e)
  | .ok _ =>
    match heapGet st.1 res with
    | none => (st.1, .error "dangling reference")
    | some r =>
      match r.get? "DEPT" with
      | none => (st.1, .error "AttributeError: no column DEPT")
      | some dept =>
        (heapSet st.1 res (r.locSet1 hfc (zoneMask dept z.1 z.2)), .ok ())

/-- `add_productive_zones` replayed on the heap: `result = data.copy()`
allocates a fresh object; the zero initialization and every loop iteration
write only through the fresh reference, which is returned. -/
def add_productive_zonesH (h : Heap) (dataRef : ℕ)
    (productive_zones : List (ℚ × ℚ)) : Heap × Except String ℕ :=
  match heapGet h dataRef with
  | none => (h, .error "dangling reference")
  | some data =>
    let alloc := heapAlloc h data.copy
    let h2 := heapSet alloc.1 alloc.2
      (data.copy.setCol hfc (List.replicate data.copy.nrows (some 0)))
    match productive_zones.foldl (addZonesStepH alloc.2) (h2, Except.ok ()) with
    | (h3, .ok _) => (h3, .ok alloc.2)
    | (h3, .error e) => (h3, .error e)

/-- One smoothing step for one curve through the heap: the working copy is
read and written through its own reference. -/
def smoothCurveStepH (ref : ℕ) (h : Heap) (cv : CurveConfig) : Heap :=
  match heapGet h ref with
  | none => h
  | some lg =>
    match lg.get? cv.column with
    | some c => heapSet h ref (lg.setCol cv.column (smoothColumn c))
    | none => h

/-- Smoothing of one track through the heap. -/
def smoothTrackH (ref : ℕ) (h : Heap) (tr : TrackConfig) : Heap :=
  if tr.smoothing.getD "no" = "yes" then
    tr.curves.foldl (smoothCurveStepH ref) h
  else h

/-- `combo_plot` replayed on the heap: the filtered working copy is
allocated fresh; the smoothing pass writes only through the fresh
reference; the figure is assembled from the final working copy. -/
def combo_plotH (h : Heap) (dataRef : ℕ) (tracks_config : List TrackConfig)
    (depth_column : String)
    (top_depth bottom_depth figure_height subplot_adjust_top
      major_ticks_interval minor_ticks_interval : ℚ)
    (num_vertical_gridlines : ℕ) (formation : Option (List (String × ℚ))) :
    Heap × Except String Figure :=
  match heapGet h dataRef with
  | none => (h, .error "dangling reference")
  | some data =>
    match data.get? depth_column with
    | none => (h, .error ("KeyError: " ++ depth_column))
    | some dept =>
      let alloc := heapAlloc h
        (filterByMask data (depthMask dept top_depth bottom_depth))
      if tracks_config.isEmpty then
        (alloc.1, .error "ValueError: number of columns must be a positive integer")
      else
        let h2 := tracks_config.foldl (smoothTrackH alloc.2) alloc.1
        match heapGet h2 alloc.2 with
        | none => (h2, .error "dangling reference")
        | some logs2 =>
          (h2, .ok (renderFigure logs2 tracks_config depth_column top_depth
            bottom_depth figure_height subplot_adjust_top major_ticks_interval
            minor_ticks_interval num_vertical_gridlines formation))

lemma heapGet_heapSet_ne (h : Heap) (s r : ℕ) (df : DataFrame) (hne : r ≠ s) :
    heapGet (heapSet h s df) r = heapGet h r := by
  unfold heapGet heapSet
  rw [List.getElem?_set_ne (fun hh => hne hh.symm)]

lemma heapGet_append_single (h : Heap) (df : DataFrame) (r : ℕ)
    (hr : r < h.length) :
    heapGet (h ++ [df]) r = heapGet h r := by
  unfold heapGet
  rw [List.getElem?_append, if_pos hr]

lemma heapGet_foldl_smoothCurveStepH (cvs : List CurveConfig) (h : Heap)
    (ref r : ℕ) (hne : r ≠ ref) :
    heapGet (cvs.foldl (smoothCurveStepH ref) h) r = heapGet h r := by
  induction cvs generalizing h with
  | nil => rfl
  | cons cv rest ih =>
    rw [List.foldl_cons, ih]
    unfold smoothCurveStepH
    cases hx : heapGet h ref with
    | none => rfl
    | some lg =>
      show heapGet (match lg.get? cv.column with
        | some c => heapSet h ref (lg.setCol cv.column (smoothColumn c))
        | none => h) r = heapGet h r
      cases lg.get? cv.column with
      | some c => exact heapGet_heapSet_ne _ _ _ _ hne
      | none => rfl

lemma heapGet_foldl_smoothTrackH (tracks : List TrackConfig) (h : Heap)
    (ref r : ℕ) (hne : r ≠ ref) :
    heapGet (tracks.foldl (smoothTrackH ref) h) r = heapGet h r := by
  induction tracks generalizing h with
  | nil => rfl
  | cons tr rest ih =>
    rw [List.foldl_cons, ih]
    unfold smoothTrackH
    by_cases hy : tr.smoothing.getD "no" = "yes"
    · rw [if_pos hy]
      exact heapGet_foldl_smoothCurveStepH tr.curves h ref r hne
    · rw [if_neg hy]

lemma heapGet_foldl_addZonesStepH (zs : List (ℚ × ℚ))
    (st : Heap × Except String Unit) (res r : ℕ) (hne : r ≠ res) :
    heapGet (zs.foldl (addZonesStepH res) st).1 r = heapGet st.1 r := by
  induction zs generalizing st with
  | nil => rfl
  | cons z rest ih =>
    rw [List.foldl_cons, ih]
    unfold addZonesStepH
    cases hs : st.2 with
    | error e => rfl
    | ok u =>
      show heapGet (match heapGet st.1 res with
        | none => (st.1, Except.error "dangling reference")
        | some rr =>
          match rr.get? "DEPT" with
          | none => (st.1, Except.error "AttributeError: no column DEPT")
          | some dept =>
            (heapSet st.1 res (rr.locSet1 hfc (zoneMask dept z.1 z.2)),
              Except.ok ())).1 r = heapGet st.1 r
      cases heapGet st.1 res with
      | none => rfl
      | some rr =>
        show heapGet (match rr.get? "DEPT" with
          | none => (st.1, Except.error "AttributeError: no column DEPT")
          | some dept =>
            (heapSet st.1 res (rr.locSet1 hfc (zoneMask dept z.1 z.2)),
              Except.ok ())).1 r = heapGet st.1 r
        cases rr.get? "DEPT" with
        | none => rfl
        | some dept => exact heapGet_heapSet_ne _ _ _ _ hne

/-- C4: neither function mutates the object the caller passed in: after
either call the caller's reference still dereferences to the untouched
input table; every write of the labeler and of the renderer's smoothing
goes through the freshly allocated working copy. -/
theorem claimC4 (h : Heap) (r : ℕ) (zones : List (ℚ × ℚ))
    (tracks : List TrackConfig) (depth_column : String)
    (top bottom fh sat mti mnti : ℚ) (N : ℕ)
    (formation : Option (List (String × ℚ)))
    (hr : r < h.length) :
    heapGet (add_productive_zonesH h r zones).1 r = heapGet h r ∧
    heapGet (combo_plotH h r tracks depth_column top bottom fh sat mti mnti N
      formation).1 r = heapGet h r := by
  have hne : r ≠ h.length := Nat.ne_of_lt hr
  constructor
  · unfold add_productive_zonesH
    dsimp only [heapAlloc]
    split
    · rfl
    · rename_i data heqdata
      have hfold := heapGet_foldl_addZonesStepH zones
        (heapSet (h ++ [data.copy]) h.length
          (data.copy.setCol hfc (List.replicate data.copy.nrows (some 0))),
          Except.ok ())
        h.length r hne
      rw [heapGet_heapSet_ne _ _ _ _ hne, heapGet_append_single h _ r hr]
        at hfold
      split
      · rename_i h3 u heq
        rw [heq] at hfold
        exact hfold
      · rename_i h3 e heq
        rw [heq] at hfold
        exact hfold
  · unfold combo_plotH
    dsimp only [heapAlloc]
    split
    · rfl
    · rename_i data heqdata
      split
      · rfl
      · rename_i dept heqdept
        split
        · exact heapGet_append_single h _ r hr
        · have hfold := heapGet_foldl_smoothTrackH tracks
            (h ++ [filterByMask data (depthMask dept top bottom)]) h.length r
            hne
          rw [heapGet_append_single h _ r hr] at hfold
          split
          · exact hfold
          · exact hfold

theorem claimC4_witness :
    (0 < ([exTable2] : Heap).length) ∧
    (heapGet (add_productive_zonesH [exTable2] 0 [(1, 2)]).1 0
        = heapGet [exTable2] 0 ∧
      heapGet (combo_plotH [exTable2] 0 [exTrackNoGrid] "DEPT" 0 10 12 (9/10)
        1 1 5 none).1 0 = heapGet [exTable2] 0) :=
  ⟨by decide,
    claimC4 [exTable2] 0 [(1, 2)] [exTrackNoGrid] "DEPT" 0 10 12 (9/10) 1 1 5
      none (by decide)⟩

end BWLI
